import Mathlib

/-!
Shallow embedding of the quaternion core of the cgmath library
(src/src/cgmath/quaternion.rs), together with theorems checking the
natural-language specification against it.

The quaternion code is embedded from the source.  Its collaborators
(the 3-vector type, the 3x3 matrix constructor and the angle wrapper)
are not part of the provided source tree; they are modelled from the
specification sections that describe them (spec sections 2 and 6) and
carry doc comments saying so.

The generic scalar type `S` of the source (a floating-point type) is
embedded as an arbitrary `Field`; theorems about the purely algebraic
operations are stated over the rationals, and the operations that need
`sqrt` and trigonometric functions are embedded over the reals.
-/

namespace Cgmath

/-- Modelled from the spec: the 3-vector collaborator, a "fixed
3-component container" (spec section 2); the vector part of a quaternion. -/
structure Vector3 (S : Type) where
  x : S
  y : S
  z : S
deriving DecidableEq, Repr

namespace Vector3

variable {S : Type} [Field S]

/-- Modelled from the spec: the zero-vector constructor (spec section 6). -/
def zero : Vector3 S := ⟨0, 0, 0⟩

/-- Modelled from the spec: componentwise vector add (spec section 6). -/
def add_v (a b : Vector3 S) : Vector3 S := ⟨a.x + b.x, a.y + b.y, a.z + b.z⟩

/-- Modelled from the spec: scalar multiply of a vector (spec section 6). -/
def mul_s (a : Vector3 S) (k : S) : Vector3 S := ⟨a.x * k, a.y * k, a.z * k⟩

/-- Modelled from the spec: scalar divide of a vector (spec section 6). -/
def div_s (a : Vector3 S) (k : S) : Vector3 S := ⟨a.x / k, a.y / k, a.z / k⟩

/-- Modelled from the spec: unary negation of a vector (spec section 6). -/
def neg (a : Vector3 S) : Vector3 S := ⟨-a.x, -a.y, -a.z⟩

/-- Modelled from the spec: the dot product of two 3-vectors (spec section 6). -/
def dot (a b : Vector3 S) : S := a.x * b.x + a.y * b.y + a.z * b.z

/-- Modelled from the spec: the cross product of two 3-vectors (spec section 6). -/
def cross (a b : Vector3 S) : Vector3 S :=
  ⟨a.y * b.z - a.z * b.y, a.z * b.x - a.x * b.z, a.x * b.y - a.y * b.x⟩

/-- Modelled from the spec: the squared length of a 3-vector (spec section 6),
the dot product of the vector with itself. -/
def length2 (a : Vector3 S) : S := dot a a

end Vector3

/-- Modelled from the spec: the 3x3 matrix collaborator, a "fixed-size square
container constructed from nine scalars" (spec sections 2 and 6); the nine
fields are kept in the order the constructor receives its arguments. -/
structure Matrix3 (S : Type) where
  a0 : S
  a1 : S
  a2 : S
  a3 : S
  a4 : S
  a5 : S
  a6 : S
  a7 : S
  a8 : S
deriving DecidableEq, Repr

/-- A quaternion in scalar/vector form (quaternion.rs, line 30). -/
structure Quaternion (S : Type) where
  s : S
  v : Vector3 S
deriving DecidableEq, Repr

namespace Quaternion

variable {S : Type} [Field S]

/-- `Quaternion::from_sv` (quaternion.rs, lines 49-51). -/
def from_sv (s : S) (v : Vector3 S) : Quaternion S := ⟨s, v⟩

/-- `Quaternion::new` (quaternion.rs, lines 43-45). -/
def new (w xi yj zk : S) : Quaternion S := from_sv w ⟨xi, yj, zk⟩

/-- `Quaternion::zero` (quaternion.rs, lines 55-57). -/
def zero : Quaternion S := new 0 0 0 0

/-- `Quaternion::identity` (quaternion.rs, lines 61-63). -/
def identity : Quaternion S := from_sv 1 Vector3.zero

/-- `mul_s` (quaternion.rs, lines 67-69). -/
def mul_s (q : Quaternion S) (value : S) : Quaternion S :=
  from_sv (q.s * value) (q.v.mul_s value)

/-- `div_s` (quaternion.rs, lines 73-75). -/
def div_s (q : Quaternion S) (value : S) : Quaternion S :=
  from_sv (q.s / value) (q.v.div_s value)

/-- `mul_v` (quaternion.rs, lines 79-82): `tmp = v.cross(vec) + vec * s`,
result `= (v.cross(tmp)) * 2 + vec`. -/
def mul_v (q : Quaternion S) (vec : Vector3 S) : Vector3 S :=
  let tmp := (q.v.cross vec).add_v (vec.mul_s q.s)
  ((q.v.cross tmp).mul_s 2).add_v vec

/-- `add_q` (quaternion.rs, lines 86-88): `build(|i| self.i(i).add(other.i(i)))`,
the componentwise sum of all four components. -/
def add_q (a b : Quaternion S) : Quaternion S :=
  ⟨a.s + b.s, ⟨a.v.x + b.v.x, a.v.y + b.v.y, a.v.z + b.v.z⟩⟩

/-- `sub_q` (quaternion.rs, lines 92-94).  The source body is
`build(|i| self.i(i).add(other.i(i)))` — it ADDS each component, identically
to `add_q`, even though its doc comment announces the difference. -/
def sub_q (a b : Quaternion S) : Quaternion S :=
  ⟨a.s + b.s, ⟨a.v.x + b.v.x, a.v.y + b.v.y, a.v.z + b.v.z⟩⟩

/-- `mul_q` (quaternion.rs, lines 97-102), transcribed verbatim. -/
def mul_q (a b : Quaternion S) : Quaternion S :=
  new (a.s * b.s - a.v.x * b.v.x - a.v.y * b.v.y - a.v.z * b.v.z)
      (a.s * b.v.x + a.v.x * b.s + a.v.y * b.v.z - a.v.z * b.v.y)
      (a.s * b.v.y + a.v.y * b.s + a.v.z * b.v.x - a.v.x * b.v.z)
      (a.s * b.v.z + a.v.z * b.s + a.v.x * b.v.y - a.v.y * b.v.x)

/-- `mul_self_s` (quaternion.rs, lines 105-107): `each_mut(|_, x| *x = x.mul(&s))`,
each of the four components multiplied by `s`. -/
def mul_self_s (q : Quaternion S) (k : S) : Quaternion S :=
  ⟨q.s * k, ⟨q.v.x * k, q.v.y * k, q.v.z * k⟩⟩

/-- `div_self_s` (quaternion.rs, lines 110-112): each of the four components
divided by `s`. -/
def div_self_s (q : Quaternion S) (k : S) : Quaternion S :=
  ⟨q.s / k, ⟨q.v.x / k, q.v.y / k, q.v.z / k⟩⟩

/-- `add_self_q` (quaternion.rs, lines 115-117): `*x = x.add(other.i(i))`,
componentwise addition into the receiver. -/
def add_self_q (a b : Quaternion S) : Quaternion S :=
  ⟨a.s + b.s, ⟨a.v.x + b.v.x, a.v.y + b.v.y, a.v.z + b.v.z⟩⟩

/-- `sub_self_q` (quaternion.rs, lines 120-122): `*x = x.sub(other.i(i))`,
componentwise subtraction into the receiver (note: a real subtraction, unlike
`sub_q`). -/
def sub_self_q (a b : Quaternion S) : Quaternion S :=
  ⟨a.s - b.s, ⟨a.v.x - b.v.x, a.v.y - b.v.y, a.v.z - b.v.z⟩⟩

/-- `mul_self_q` (quaternion.rs, lines 125-127): `*self = self.mul_q(other)`. -/
def mul_self_q (a b : Quaternion S) : Quaternion S := mul_q a b

/-- `dot` (quaternion.rs, lines 131-133). -/
def dot (a b : Quaternion S) : S := a.s * b.s + a.v.dot b.v

/-- `conjugate` (quaternion.rs, lines 137-139). -/
def conjugate (q : Quaternion S) : Quaternion S := from_sv q.s q.v.neg

/-- `magnitude2` (quaternion.rs, lines 145-147). -/
def magnitude2 (q : Quaternion S) : S := q.s * q.s + q.v.length2

/-- `magnitude` (quaternion.rs, lines 157-159): the square root of
`magnitude2`, embedded over the reals. -/
noncomputable def magnitude (q : Quaternion ℝ) : ℝ := Real.sqrt q.magnitude2

/-- `normalize` (quaternion.rs, lines 163-165): `self.mul_s(1 / self.magnitude())`. -/
noncomputable def normalize (q : Quaternion ℝ) : Quaternion ℝ :=
  q.mul_s (1 / q.magnitude)

/-- `nlerp` (quaternion.rs, lines 172-174). -/
noncomputable def nlerp (a b : Quaternion ℝ) (amount : ℝ) : Quaternion ℝ :=
  ((a.mul_s (1 - amount)).add_q (b.mul_s amount)).normalize

/-- `slerp` (quaternion.rs, lines 198-227), transcribed step by step.  The
angle wrapper `Rad` is modelled from the spec as a plain real number (a
"typed scalar tagged as radians", spec section 2), with `acos` and `sin` the
real inverse-cosine and sine. -/
noncomputable def slerp (a b : Quaternion ℝ) (amount : ℝ) : Quaternion ℝ :=
  let dot := a.dot b
  let dot_threshold : ℝ := 0.9995
  if dot > dot_threshold then
    a.nlerp b amount
  else
    let robust_dot :=
      if dot > 1 then (1 : ℝ) else if dot < -1 then (-1 : ℝ) else dot
    let theta := Real.arccos robust_dot
    let scale1 := Real.sin (theta * (1 - amount))
    let scale2 := Real.sin (theta * amount)
    ((a.mul_s scale1).add_q (b.mul_s scale2)).mul_s (Real.sin theta)⁻¹

/-- The specification's description of `slerp` (claim wording): compare
`dot` against `0.9995` and fall back to `nlerp`, otherwise clamp `dot` into
`[-1, 1]`, take `theta = acos(clamped dot)`, and divide
`sin(theta*(1-amount))*self + sin(theta*amount)*other` by `sin(theta)`. -/
noncomputable def slerp_spec (a b : Quaternion ℝ) (amount : ℝ) : Quaternion ℝ :=
  let dot := a.dot b
  if dot > 0.9995 then
    a.nlerp b amount
  else
    let clamped := max (-1) (min 1 dot)
    let theta := Real.arccos clamped
    ((a.mul_s (Real.sin (theta * (1 - amount)))).add_q
      (b.mul_s (Real.sin (theta * amount)))).div_s (Real.sin theta)

/-- `to_matrix3` (quaternion.rs, lines 233-253), transcribed verbatim: the
doubled components `x2 = x + x` etc., the doubled products, and the nine
arguments handed to the `Matrix3` constructor in source order. -/
def to_matrix3 (q : Quaternion S) : Matrix3 S :=
  let x2 := q.v.x + q.v.x
  let y2 := q.v.y + q.v.y
  let z2 := q.v.z + q.v.z
  let xx2 := x2 * q.v.x
  let xy2 := x2 * q.v.y
  let xz2 := x2 * q.v.z
  let yy2 := y2 * q.v.y
  let yz2 := y2 * q.v.z
  let zz2 := z2 * q.v.z
  let sy2 := y2 * q.s
  let sz2 := z2 * q.s
  let sx2 := x2 * q.s
  ⟨1 - yy2 - zz2, xy2 + sz2, xz2 - sy2,
   xy2 - sz2, 1 - xx2 - zz2, yz2 + sx2,
   xz2 + sy2, yz2 - sx2, 1 - xx2 - yy2⟩

/-- `between_vectors` (quaternion.rs, lines 325-329):
`Quaternion::from_sv(1 + a.dot(b), a.cross(b)).normalize()`. -/
noncomputable def between_vectors (a b : Vector3 ℝ) : Quaternion ℝ :=
  (from_sv (1 + a.dot b) (a.cross b)).normalize

end Quaternion

/-! Shared helper lemmas (not tied to a single claim). -/

namespace Quaternion

/-- Dividing each component by `c` is multiplying each component by `c⁻¹`. -/
theorem div_s_eq_mul_s_inv (q : Quaternion ℝ) (c : ℝ) : q.div_s c = q.mul_s c⁻¹ := by
  simp [div_s, mul_s, Vector3.div_s, Vector3.mul_s, from_sv, div_eq_mul_inv]

/-- The clamp used by `slerp` (two nested conditionals) is clamping into
`[-1, 1]`. -/
theorem slerp_clamp_eq (d : ℝ) :
    (if d > 1 then (1 : ℝ) else if d < -1 then -1 else d) = max (-1) (min 1 d) := by
  split_ifs with h1 h2
  · rw [min_eq_left h1.le, max_eq_right (by norm_num : (-1 : ℝ) ≤ 1)]
  · rw [min_eq_right (not_lt.mp h1), max_eq_left h2.le]
  · rw [min_eq_right (not_lt.mp h1), max_eq_right (not_lt.mp h2)]

/-- Scaling a quaternion scales its squared magnitude by the square of the
scalar. -/
theorem magnitude2_mul_s (q : Quaternion ℝ) (k : ℝ) :
    (q.mul_s k).magnitude2 = q.magnitude2 * (k * k) := by
  obtain ⟨s, x, y, z⟩ := q
  simp only [mul_s, from_sv, magnitude2, Vector3.mul_s, Vector3.length2, Vector3.dot]
  ring

/-- The squared magnitude is a sum of squares, hence nonnegative. -/
theorem magnitude2_nonneg (q : Quaternion ℝ) : 0 ≤ q.magnitude2 := by
  simp only [magnitude2, Vector3.length2, Vector3.dot]
  nlinarith [mul_self_nonneg q.s, mul_self_nonneg q.v.x, mul_self_nonneg q.v.y,
    mul_self_nonneg q.v.z]

end Quaternion

/-! Claim theorems. -/

open Quaternion

/-- Claim C1 (code_bug evidence): at the concrete input `a = (1, 2, 3, 4)`,
`b = (1, 1, 1, 1)`, `sub_q` returns the componentwise SUM `(2, 3, 4, 5)` and
not the componentwise difference `(0, 1, 2, 3)` the claim (and the source's
own doc comment) promise: its body duplicates `add_q`. -/
theorem sub_q_adds_at_failing_input :
    sub_q (⟨1, ⟨2, 3, 4⟩⟩ : Quaternion ℚ) ⟨1, ⟨1, 1, 1⟩⟩ = ⟨2, ⟨3, 4, 5⟩⟩ ∧
    sub_q (⟨1, ⟨2, 3, 4⟩⟩ : Quaternion ℚ) ⟨1, ⟨1, 1, 1⟩⟩ ≠ ⟨0, ⟨1, 2, 3⟩⟩ := by
  constructor
  · norm_num [sub_q]
  · norm_num [sub_q]

/-- Claim C2 (code_bug evidence): at `q = (1, 2, 3, 4)`, `r = (1, 1, 1, 1)`,
the in-place `sub_self_q` leaves the receiver at the true componentwise
difference `(0, 1, 2, 3)`, which differs from its pure counterpart
`sub_q(q, r)` because `sub_q` adds (copy-paste bug); the claimed in-place /
pure equivalence fails for the subtraction pair. -/
theorem sub_self_q_ne_sub_q_at_failing_input :
    sub_self_q (⟨1, ⟨2, 3, 4⟩⟩ : Quaternion ℚ) ⟨1, ⟨1, 1, 1⟩⟩ = ⟨0, ⟨1, 2, 3⟩⟩ ∧
    sub_self_q (⟨1, ⟨2, 3, 4⟩⟩ : Quaternion ℚ) ⟨1, ⟨1, 1, 1⟩⟩ ≠
      sub_q (⟨1, ⟨2, 3, 4⟩⟩ : Quaternion ℚ) ⟨1, ⟨1, 1, 1⟩⟩ := by
  constructor
  · norm_num [sub_self_q]
  · norm_num [sub_self_q, sub_q]

/-- Claim C3: `mul_q` is the Hamilton product: scalar part
`a.s * b.s - a.v · b.v`, vector part `a.s * b.v + b.s * a.v + a.v × b.v`. -/
theorem mul_q_is_hamilton_product (a b : Quaternion ℚ) :
    mul_q a b =
      from_sv (a.s * b.s - a.v.dot b.v)
        (((b.v.mul_s a.s).add_v (a.v.mul_s b.s)).add_v (a.v.cross b.v)) := by
  obtain ⟨a0, a1, a2, a3⟩ := a
  obtain ⟨b0, b1, b2, b3⟩ := b
  simp only [mul_q, new, from_sv, Vector3.dot, Vector3.cross, Vector3.mul_s,
    Vector3.add_v, Quaternion.mk.injEq, Vector3.mk.injEq]
  refine ⟨by ring, by ring, by ring, by ring⟩

/-- Claim C5: the two-step form of `mul_v`
(`tmp = q.v × vec + s * vec; result = 2 * (q.v × tmp) + vec`) equals
`vec + 2 * s * (q.v × vec) + 2 * (q.v × (q.v × vec))` for all inputs,
not only unit quaternions. -/
theorem mul_v_rotation_identity (q : Quaternion ℚ) (vec : Vector3 ℚ) :
    mul_v q vec =
      (vec.add_v ((q.v.cross vec).mul_s (2 * q.s))).add_v
        ((q.v.cross (q.v.cross vec)).mul_s 2) := by
  obtain ⟨s, x, y, z⟩ := q
  obtain ⟨u, v, w⟩ := vec
  simp only [mul_v, Vector3.cross, Vector3.add_v, Vector3.mul_s, Vector3.mk.injEq]
  refine ⟨by ring, by ring, by ring⟩

/-- Claim C6: `to_matrix3` hands the `Matrix3` constructor, in source order,
the nine entries built from the doubled products `xx2 = 2x²`, `yy2 = 2y²`,
`zz2 = 2z²`, `xy2 = 2xy`, `xz2 = 2xz`, `yz2 = 2yz`, `sx2 = 2sx`,
`sy2 = 2sy`, `sz2 = 2sz`: rows `(1-yy2-zz2, xy2+sz2, xz2-sy2)`,
`(xy2-sz2, 1-xx2-zz2, yz2+sx2)`, `(xz2+sy2, yz2-sx2, 1-xx2-yy2)`. -/
theorem to_matrix3_doubled_products (q : Quaternion ℚ) :
    to_matrix3 q =
      ⟨1 - 2 * (q.v.y * q.v.y) - 2 * (q.v.z * q.v.z),
       2 * (q.v.x * q.v.y) + 2 * (q.s * q.v.z),
       2 * (q.v.x * q.v.z) - 2 * (q.s * q.v.y),
       2 * (q.v.x * q.v.y) - 2 * (q.s * q.v.z),
       1 - 2 * (q.v.x * q.v.x) - 2 * (q.v.z * q.v.z),
       2 * (q.v.y * q.v.z) + 2 * (q.s * q.v.x),
       2 * (q.v.x * q.v.z) + 2 * (q.s * q.v.y),
       2 * (q.v.y * q.v.z) - 2 * (q.s * q.v.x),
       1 - 2 * (q.v.x * q.v.x) - 2 * (q.v.y * q.v.y)⟩ := by
  obtain ⟨s, x, y, z⟩ := q
  simp only [to_matrix3, Matrix3.mk.injEq]
  refine ⟨by ring, by ring, by ring, by ring, by ring, by ring, by ring, by ring,
    by ring⟩

/-- Claim C7: the Hamilton product of a quaternion with its conjugate is the
pure-scalar quaternion carrying the squared 4-D norm:
`q.mul_q(q.conjugate()) = from_sv(q.magnitude2(), 0)`. -/
theorem mul_q_conjugate_eq_magnitude2 (q : Quaternion ℚ) :
    mul_q q q.conjugate = from_sv q.magnitude2 Vector3.zero := by
  obtain ⟨s, x, y, z⟩ := q
  simp only [mul_q, conjugate, from_sv, new, Vector3.neg, Vector3.zero,
    magnitude2, Vector3.length2, Vector3.dot, Quaternion.mk.injEq,
    Vector3.mk.injEq]
  refine ⟨by ring, by ring, by ring, by ring⟩

/-- Claim C10: the quaternion's 4-D self dot product coincides with its
squared magnitude: `q.dot(q) = q.magnitude2()`. -/
theorem dot_self_eq_magnitude2 (q : Quaternion ℚ) : dot q q = magnitude2 q := by
  simp only [dot, magnitude2, Vector3.length2]

/-- Claim C4: `slerp` performs exactly the steps the specification describes:
compare `dot` with `0.9995` and fall back to `nlerp` when above; otherwise
clamp `dot` into `[-1, 1]`, set `theta = acos(clamped dot)`, and return
`(sin(theta*(1-amount))*self + sin(theta*amount)*other)` divided by
`sin(theta)`. -/
theorem slerp_eq_slerp_spec (a b : Quaternion ℝ) (amount : ℝ) :
    slerp a b amount = slerp_spec a b amount := by
  simp only [slerp, slerp_spec]
  rw [slerp_clamp_eq]
  split
  · rfl
  · rw [div_s_eq_mul_s_inv]

/-- Claim C8: for any quaternion with nonzero magnitude, the normalized
quaternion has magnitude exactly 1 over the real-number embedding. -/
theorem normalize_magnitude_eq_one (q : Quaternion ℝ) (h : q.magnitude ≠ 0) :
    q.normalize.magnitude = 1 := by
  have hm2 : 0 ≤ q.magnitude2 := magnitude2_nonneg q
  have hmm : q.magnitude * q.magnitude = q.magnitude2 := Real.mul_self_sqrt hm2
  have hm2ne : q.magnitude2 ≠ 0 := by
    intro h0
    exact h (by rw [magnitude, h0, Real.sqrt_zero])
  have harg : q.magnitude2 * (1 / q.magnitude * (1 / q.magnitude)) = 1 := by
    rw [div_mul_div_comm, one_mul, hmm]
    rw [mul_one_div, div_self hm2ne]
  have hnm : q.normalize.magnitude =
      Real.sqrt ((q.mul_s (1 / q.magnitude)).magnitude2) := rfl
  rw [hnm, magnitude2_mul_s, harg, Real.sqrt_one]

/-- Claim C8 witness: the quaternion `(1, 0, 0, 0)` has nonzero magnitude and
its normalization has magnitude 1. -/
theorem normalize_magnitude_eq_one_witness :
    (⟨1, ⟨0, 0, 0⟩⟩ : Quaternion ℝ).magnitude ≠ 0 ∧
    (⟨1, ⟨0, 0, 0⟩⟩ : Quaternion ℝ).normalize.magnitude = 1 := by
  have h : (⟨1, ⟨0, 0, 0⟩⟩ : Quaternion ℝ).magnitude ≠ 0 := by
    norm_num [magnitude, magnitude2, Vector3.length2, Vector3.dot, Real.sqrt_one]
  exact ⟨h, normalize_magnitude_eq_one _ h⟩

/-- Claim C9: for a unit vector `a` paired with `b = -a`, the intermediate
quaternion `from_sv(1 + a·b, a×b)` built by `between_vectors` has scalar
part 0 and zero vector part, hence `magnitude2 = 0` and `magnitude = 0`, so
the subsequent `normalize` divides by a zero magnitude. -/
theorem between_vectors_antiparallel_degenerate (a : Vector3 ℝ)
    (h : a.dot a = 1) :
    (from_sv (1 + a.dot a.neg) (a.cross a.neg)).s = 0 ∧
    (from_sv (1 + a.dot a.neg) (a.cross a.neg)).v = Vector3.zero ∧
    (from_sv (1 + a.dot a.neg) (a.cross a.neg)).magnitude2 = 0 ∧
    (from_sv (1 + a.dot a.neg) (a.cross a.neg)).magnitude = 0 := by
  obtain ⟨x, y, z⟩ := a
  simp only [Vector3.dot] at h
  have hs : 1 + Vector3.dot ⟨x, y, z⟩ (Vector3.neg ⟨x, y, z⟩) = 0 := by
    simp only [Vector3.dot, Vector3.neg]
    nlinarith [h]
  have hv : Vector3.cross ⟨x, y, z⟩ (Vector3.neg ⟨x, y, z⟩) =
      (Vector3.zero : Vector3 ℝ) := by
    simp only [Vector3.cross, Vector3.neg, Vector3.zero, Vector3.mk.injEq]
    refine ⟨by ring, by ring, by ring⟩
  have hq : from_sv (1 + Vector3.dot ⟨x, y, z⟩ (Vector3.neg ⟨x, y, z⟩))
      (Vector3.cross ⟨x, y, z⟩ (Vector3.neg ⟨x, y, z⟩)) =
      from_sv (0 : ℝ) Vector3.zero := by
    rw [hs, hv]
  refine ⟨?_, ?_, ?_, ?_⟩
  · rw [hq]
    rfl
  · rw [hq]
    rfl
  · rw [hq]
    norm_num [magnitude2, from_sv, Vector3.length2, Vector3.dot, Vector3.zero]
  · rw [hq, magnitude]
    norm_num [magnitude2, from_sv, Vector3.length2, Vector3.dot, Vector3.zero,
      Real.sqrt_zero]

/-- Claim C9 witness: the unit vector `(1, 0, 0)` against its negation. -/
theorem between_vectors_antiparallel_degenerate_witness :
    Vector3.dot (⟨1, 0, 0⟩ : Vector3 ℝ) ⟨1, 0, 0⟩ = 1 ∧
    ((from_sv (1 + Vector3.dot (⟨1, 0, 0⟩ : Vector3 ℝ) (Vector3.neg ⟨1, 0, 0⟩))
        (Vector3.cross (⟨1, 0, 0⟩ : Vector3 ℝ) (Vector3.neg ⟨1, 0, 0⟩))).s = 0 ∧
      (from_sv (1 + Vector3.dot (⟨1, 0, 0⟩ : Vector3 ℝ) (Vector3.neg ⟨1, 0, 0⟩))
        (Vector3.cross (⟨1, 0, 0⟩ : Vector3 ℝ) (Vector3.neg ⟨1, 0, 0⟩))).v =
          Vector3.zero ∧
      (from_sv (1 + Vector3.dot (⟨1, 0, 0⟩ : Vector3 ℝ) (Vector3.neg ⟨1, 0, 0⟩))
        (Vector3.cross (⟨1, 0, 0⟩ : Vector3 ℝ) (Vector3.neg ⟨1, 0, 0⟩))).magnitude2
          = 0 ∧
      (from_sv (1 + Vector3.dot (⟨1, 0, 0⟩ : Vector3 ℝ) (Vector3.neg ⟨1, 0, 0⟩))
        (Vector3.cross (⟨1, 0, 0⟩ : Vector3 ℝ) (Vector3.neg ⟨1, 0, 0⟩))).magnitude
          = 0) := by
  have h : Vector3.dot (⟨1, 0, 0⟩ : Vector3 ℝ) ⟨1, 0, 0⟩ = 1 := by
    norm_num [Vector3.dot]
  exact ⟨h, between_vectors_antiparallel_degenerate ⟨1, 0, 0⟩ h⟩

end Cgmath
